import Mathlib

/-!
Verification development for the xmidt-agent secure configuration bootstrap
resolver.  The data model is embedded from `src/src/config/config.h`; the
behavioral components (trust store loader, interface selector, DNS-TXT
discovery, JWT verifier, issuer fetch client, bootstrap orchestrator) are
modelled from the specification, since only their configuration data
declarations appear in the repository sources.
-/

namespace XmidtAgent

/-- `enum tls_version` from `src/src/config/config.h`, lines 14-20.
`TLS_VERSION__MAX = 0` and the remaining enumerators take the successive
values assigned by C enumeration (1, 2, 3, 4). -/
inductive tls_version where
  | TLS_VERSION__MAX
  | TLS_VERSION__1_0
  | TLS_VERSION__1_1
  | TLS_VERSION__1_2
  | TLS_VERSION__1_3
deriving DecidableEq, Repr

/-- The integer value each `tls_version` enumerator has in C:
`TLS_VERSION__MAX = 0` explicitly, the rest by successive increment. -/
def tls_version.toC : tls_version → Nat
  | .TLS_VERSION__MAX => 0
  | .TLS_VERSION__1_0 => 1
  | .TLS_VERSION__1_1 => 2
  | .TLS_VERSION__1_2 => 3
  | .TLS_VERSION__1_3 => 4

/-- The `tls_version` enumerator denoted by a C integer value, if any;
a zero-initialized `enum tls_version` field holds the value `0`. -/
def tls_version.ofC : Nat → Option tls_version
  | 0 => some .TLS_VERSION__MAX
  | 1 => some .TLS_VERSION__1_0
  | 2 => some .TLS_VERSION__1_1
  | 3 => some .TLS_VERSION__1_2
  | 4 => some .TLS_VERSION__1_3
  | _ => none

/-- The concrete protocol versions (every enumerator except the
`TLS_VERSION__MAX` sentinel). -/
def tls_version.concrete : List tls_version :=
  [.TLS_VERSION__1_0, .TLS_VERSION__1_1, .TLS_VERSION__1_2, .TLS_VERSION__1_3]

/-- `cjwt_alg_t` from the cjwt library consumed by `config.h`:
the JWT signing algorithm identifiers, with `num_algorithms` as the
trailing count sentinel. -/
inductive cjwt_alg_t where
  | alg_none
  | alg_es256 | alg_es384 | alg_es512
  | alg_hs256 | alg_hs384 | alg_hs512
  | alg_ps256 | alg_ps384 | alg_ps512
  | alg_rs256 | alg_rs384 | alg_rs512
deriving DecidableEq, Repr

/-- The `num_algorithms` sentinel used as the size of the
`algs[num_algorithms]` array in `config.h`. -/
def num_algorithms : Nat := 13

/-- `struct interface` from `src/src/config/config.h`, lines 22-25:
an interface name (`struct xa_string`, embedded as `String`) and an
`int` preference cost. -/
structure Interface where
  name : String
  cost : Int
deriving DecidableEq, Repr

/-- Modelled from the spec: abstract verification-key material for a trust
anchor (§3 TrustAnchor "key material"); the cryptography itself is symbolic,
so key material is represented by an opaque natural-number handle. -/
abbrev Key := Nat

/-- Modelled from the spec: a JWT compact-serialization header, reduced to
the one field the verifier reads, the declared algorithm (§4.4 "parse the
header to read the declared algorithm"). -/
structure JwtHeader where
  alg : cjwt_alg_t
deriving DecidableEq, Repr

/-- Modelled from the spec: the JWT payload claims the verifier consumes —
the issuer URL claim and the standard temporal claims giving the validity
window (not-before / expiry, §3 VerifiedClaim, §4.4). -/
structure JwtClaims where
  iss : String
  nbf : Int
  exp : Int
deriving DecidableEq, Repr

/-- Modelled from the spec: a symbolic (Dolev–Yao style) JWT signature.
A signature produced with algorithm `a` over key `k` is the record
`⟨a, k⟩`; it verifies against exactly that algorithm/key pair. -/
structure JwtSignature where
  alg : cjwt_alg_t
  key : Key
deriving DecidableEq, Repr

/-- Modelled from the spec: signing a token with key material `k` under
algorithm `a` (the symbolic counterpart of producing a cryptographically
valid signature, used by the §8 sign-then-verify round-trip). -/
def signToken (a : cjwt_alg_t) (k : Key) : JwtSignature := ⟨a, k⟩

/-- Modelled from the spec: one ephemeral DiscoveryRecord (a TXT answer
string, §3).  Base64url/JSON decoding is abstracted: a record either fails
to parse as a compact JWT (`malformed`) or yields its header, claims and
signature (`jwt`). -/
inductive Candidate where
  | malformed (raw : String)
  | jwt (h : JwtHeader) (c : JwtClaims) (s : JwtSignature)
deriving DecidableEq, Repr

/-- Modelled from the spec: a TrustAnchor (§3): key material keyed by
algorithm identifier, one entry per configured algorithm, immutable for
the process lifetime. -/
structure TrustAnchor where
  alg : cjwt_alg_t
  key : Key
deriving DecidableEq, Repr

/-- Modelled from the spec: the trust store produced by the Trust Store
Loader (§4.1) — an immutable mapping from algorithm to verification key,
embedded as a list of anchors looked up by algorithm. -/
abbrev TrustStore := List TrustAnchor

/-- Modelled from the spec: keyed lookup of the trust anchor for a declared
algorithm (§3 "keyed by algorithm identifier ... for O(1) lookup during
verification"). -/
def lookupAnchor (ts : TrustStore) (a : cjwt_alg_t) : Option TrustAnchor :=
  List.find? (fun t => t.alg == a) ts

/-- Modelled from the spec: the result of successful JWT verification —
at minimum an issuer URL and validity window (§3 VerifiedClaim). -/
structure VerifiedClaim where
  issuerUrl : String
  nbf : Int
  exp : Int
deriving DecidableEq, Repr

/-- Modelled from the spec: `VerificationError` (§4.4). -/
inductive VerificationError where
  | NoValidToken
  | AllAlgorithmsRejected
  | Expired
  | NotYetValid
  | MalformedClaims
deriving DecidableEq, Repr

/-- Modelled from the spec: the reason a single candidate record was
rejected during verification (per-candidate, before error aggregation). -/
inductive CandFail where
  | parseFailed
  | algRejected
  | noAnchor
  | badSignature
  | expired
  | notYetValid
deriving DecidableEq, Repr

/-- Modelled from the spec: verification of one candidate TXT record
(§4.4): parse as compact JWT; read the declared algorithm from the header;
reject if not in the allow-list (no fallback, no negotiation); verify the
signature against the trust anchor for the declared algorithm; validate
the temporal claims against the current time; on success produce the
`VerifiedClaim`. -/
def checkCandidate (store : TrustStore) (allow : List cjwt_alg_t) (now : Int) :
    Candidate → Except CandFail VerifiedClaim
  | .malformed _ => .error .parseFailed
  | .jwt h c s =>
    if h.alg ∈ allow then
      match lookupAnchor store h.alg with
      | none => .error .noAnchor
      | some anchor =>
        if s = signToken anchor.alg anchor.key then
          if now < c.nbf then .error .notYetValid
          else if c.exp ≤ now then .error .expired
          else .ok ⟨c.iss, c.nbf, c.exp⟩
        else .error .badSignature
    else .error .algRejected

/-- Modelled from the spec: the JWT Verifier's scan over the TXT record
set in received order (§4.4): return the `VerifiedClaim` of the first
candidate that verifies; if none verifies, fail with
`AllAlgorithmsRejected` when some candidate was rejected for declaring an
algorithm outside the allow-list (§8 "any JWT signed with an algorithm
∉ A ... must fail with AllAlgorithmsRejected"), and with `NoValidToken`
otherwise.  `sawAlgRejected` records whether an algorithm rejection has
occurred among the candidates already scanned. -/
def verifyScan (store : TrustStore) (allow : List cjwt_alg_t) (now : Int)
    (sawAlgRejected : Bool) :
    List Candidate → Except VerificationError VerifiedClaim
  | [] => .error (if sawAlgRejected then .AllAlgorithmsRejected else .NoValidToken)
  | r :: rs =>
    match checkCandidate store allow now r with
    | .ok c => .ok c
    | .error .algRejected => verifyScan store allow now true rs
    | .error _ => verifyScan store allow now sawAlgRejected rs

/-- Modelled from the spec: the JWT Verifier (§4.4): input the list of raw
TXT records (in received order), the trust store, the allowed algorithms
and the current time; output the first verified claim or a
`VerificationError`. -/
def verifyRecords (store : TrustStore) (allow : List cjwt_alg_t) (now : Int)
    (records : List Candidate) : Except VerificationError VerifiedClaim :=
  verifyScan store allow now false records

/-- Modelled from the spec: the response the issuer's HTTP server gives for
one URL — a 2xx with the payload body, a 3xx redirect with a Location, or
another status code (§4.5, §6 "standard HTTP redirect semantics"). -/
inductive HttpResponse where
  | success (body : List Nat)
  | redirect (location : String)
  | status (code : Nat)
deriving DecidableEq, Repr

/-- Modelled from the spec: `FetchError` (§4.5). -/
inductive FetchError where
  | TLSHandshakeFailed
  | CertificateRejected
  | Timeout
  | TooManyRedirects
  | HTTPStatus (code : Nat)
  | NetworkUnreachable
deriving DecidableEq, Repr

/-- Modelled from the spec: whether the Fetch Client may follow one more
redirect after having already followed `followed` of them, under the
configured `max_redirects` (`config.h` line 72: −1 for unlimited, 0 for
none, 1+ for a finite limit). -/
def redirectAllowed (maxRedirects : Int) (followed : Nat) : Bool :=
  maxRedirects < 0 || (followed : Int) < maxRedirects

/-- Modelled from the spec: the Issuer Fetch Client's redirect-following
loop (§4.5).  `server` abstracts the network (URL to response), `fuel`
bounds the total number of requests (the request-timeout budget / safety
ceiling of §8), `followed` counts redirects already followed.  On success
it returns the number of redirects followed together with the payload
bytes; exceeding `max_redirects` is the hard failure `TooManyRedirects`. -/
def fetchLoop (server : String → HttpResponse) (maxRedirects : Int) :
    Nat → Nat → String → Except FetchError (Nat × List Nat)
  | 0, _, _ => .error .Timeout
  | fuel + 1, followed, url =>
    match server url with
    | .success body => .ok (followed, body)
    | .status code => .error (.HTTPStatus code)
    | .redirect loc =>
      if redirectAllowed maxRedirects followed then
        fetchLoop server maxRedirects fuel (followed + 1) loc
      else
        .error .TooManyRedirects

/-- Modelled from the spec: one fetch of the issuer URL by the Issuer
Fetch Client, starting with no redirects followed yet (§4.5). -/
def fetchIssuer (server : String → HttpResponse) (maxRedirects : Int)
    (fuel : Nat) (url : String) : Except FetchError (Nat × List Nat) :=
  fetchLoop server maxRedirects fuel 0 url

/-- Comparison of interfaces by preference cost (lower cost = higher
preference, §3). -/
def leCost (a b : Interface) : Prop := a.cost ≤ b.cost

instance : DecidableRel leCost := fun a b => Int.decLe a.cost b.cost

instance : IsTotal Interface leCost := ⟨fun a b => Int.le_total a.cost b.cost⟩

instance : IsTrans Interface leCost := ⟨fun _ _ _ h1 h2 => le_trans h1 h2⟩

/-- Modelled from the spec: the "default" pseudo-interface signifying
"use OS default route" (§4.2). -/
def defaultInterface : Interface := ⟨"default", 0⟩

/-- Modelled from the spec: the interface-list validation performed at
load time (`config_read` is declared in `config.h` but its body is not in
the sources): cost is a non-negative preference weight, and the set is
fixed at load time, ordered ascending by cost for selection (§3). -/
def loadInterfaces (l : List Interface) : Option (List Interface) :=
  if l.all (fun i => 0 ≤ i.cost) then some (List.insertionSort leCost l) else none

/-- Modelled from the spec: the Interface Selector (§4.2) — purely a
cursor over the immutable configuration; `remaining` holds the interfaces
not yet yielded, in the order they will be yielded. -/
structure Selector where
  remaining : List Interface
deriving DecidableEq, Repr

/-- Modelled from the spec: construction of the Interface Selector: the
configured interfaces ordered ascending by cost, or the single "default"
pseudo-interface when the list is empty (§4.2). -/
def Selector.init (l : List Interface) : Selector :=
  ⟨if l.isEmpty then [defaultInterface] else List.insertionSort leCost l⟩

/-- Modelled from the spec: `next()` — yields the next interface in
ascending cost order, one at a time; `none` once exhausted (§4.2). -/
def Selector.next : Selector → Option (Interface × Selector)
  | ⟨[]⟩ => none
  | ⟨i :: rest⟩ => some (i, ⟨rest⟩)

/-- Modelled from the spec: the exponential backoff wait before retry
number `attempt`, bounded above by `backoff_max` (`config.h` line 51,
spec §4.6, §8). -/
def backoffWait (backoff_max base attempt : Nat) : Nat :=
  min (base * 2 ^ attempt) backoff_max

/-- Modelled from the spec: `DiscoveryError` (§4.3). -/
inductive DiscoveryError where
  | Timeout
  | NXDOMAIN
  | NetworkUnreachable
  | MalformedResponse
deriving DecidableEq, Repr

/-- Modelled from the spec: the reason for the terminal `Failed` state of
the Bootstrap Orchestrator — only an explicit external cancellation
(§4.6, §5). -/
inductive FailReason where
  | Cancelled
deriving DecidableEq, Repr

/-- Modelled from the spec: the phases of the Bootstrap Orchestrator's
state machine `SelectInterface → Discover → Verify → Fetch →
Done | Retrying | Failed` (§4.6). -/
inductive OPhase where
  | SelectInterface
  | Discover
  | Verify (records : List Candidate)
  | Fetch (claim : VerifiedClaim)
  | Retrying (wait : Nat)
  | Done (payload : List Nat)
  | Failed (r : FailReason)
deriving DecidableEq, Repr

/-- Whether an orchestrator phase is terminal (§4.6: terminal success
`Done`, terminal failure `Failed`). -/
def OPhase.terminal : OPhase → Bool
  | .Done _ => true
  | .Failed _ => true
  | _ => false

/-- Modelled from the spec: the Bootstrap Orchestrator's state — current
phase, interface-selector cursor, currently bound interface, and retry
counter (§4.6). -/
structure OrchState where
  phase : OPhase
  sel : Selector
  curIface : Interface
  retries : Nat
deriving DecidableEq, Repr

/-- Modelled from the spec: the configuration a bootstrap attempt reads —
trust store and allow-list loaded before the attempt began, the current
time, and the backoff parameters (§4.6, §5). -/
structure OrchConfig where
  store : TrustStore
  allow : List cjwt_alg_t
  now : Int
  backoff_max : Nat
  backoffBase : Nat
deriving Repr

/-- Modelled from the spec: the inputs the orchestrator reacts to — the
external cancellation signal (§5), internal progress (`tick`, which
performs interface selection, the pure verification step, and the end of
a backoff wait), and the outcomes of the blocking discovery and fetch
operations (§4.3, §4.5). -/
inductive Event where
  | cancel
  | tick
  | dnsOk (records : List Candidate)
  | dnsErr (e : DiscoveryError)
  | fetchOk (body : List Nat)
  | fetchErr (e : FetchError)
deriving DecidableEq, Repr

/-- Modelled from the spec: the orchestrator's initial state for one run
over the configured interface list (§4.6). -/
def orchInit (interfaces : List Interface) : OrchState :=
  ⟨.SelectInterface, Selector.init interfaces, defaultInterface, 0⟩

/-- Modelled from the spec: one transition of the Bootstrap Orchestrator
(§4.6): terminal states absorb; cancellation from any non-terminal state
goes to `Failed Cancelled` with no further retries; `NetworkUnreachable`
from discovery or fetch advances the Interface Selector and restarts from
`Discover`; every other error waits `backoffWait` (capped by
`backoff_max`) and retries from `Discover`; verification failures are
likewise retried with backoff, never fatal; a verified claim moves to
`Fetch`, and a fetched payload to `Done`. -/
def orchStep (cfg : OrchConfig) (s : OrchState) (ev : Event) : OrchState :=
  if s.phase.terminal then s
  else
    match ev with
    | .cancel => { s with phase := .Failed .Cancelled }
    | .tick =>
      match s.phase with
      | .SelectInterface =>
        match s.sel.next with
        | some (i, sel') => { s with phase := .Discover, curIface := i, sel := sel' }
        | none =>
          { s with
              phase := .Retrying (backoffWait cfg.backoff_max cfg.backoffBase s.retries),
              curIface := defaultInterface,
              retries := s.retries + 1 }
      | .Verify rs =>
        match verifyRecords cfg.store cfg.allow cfg.now rs with
        | .ok c => { s with phase := .Fetch c }
        | .error _ =>
          { s with
              phase := .Retrying (backoffWait cfg.backoff_max cfg.backoffBase s.retries),
              retries := s.retries + 1 }
      | .Retrying _ => { s with phase := .Discover }
      | _ => s
    | .dnsOk rs =>
      match s.phase with
      | .Discover => { s with phase := .Verify rs }
      | _ => s
    | .dnsErr e =>
      match s.phase with
      | .Discover =>
        if e = .NetworkUnreachable then { s with phase := .SelectInterface }
        else
          { s with
              phase := .Retrying (backoffWait cfg.backoff_max cfg.backoffBase s.retries),
              retries := s.retries + 1 }
      | _ => s
    | .fetchOk body =>
      match s.phase with
      | .Fetch _ => { s with phase := .Done body }
      | _ => s
    | .fetchErr e =>
      match s.phase with
      | .Fetch _ =>
        if e = .NetworkUnreachable then { s with phase := .SelectInterface }
        else
          { s with
              phase := .Retrying (backoffWait cfg.backoff_max cfg.backoffBase s.retries),
              retries := s.retries + 1 }
      | _ => s

/-- A successful anchor lookup returns a member of the store whose
algorithm is the requested one. -/
theorem lookupAnchor_eq_some (ts : TrustStore) (a : cjwt_alg_t) (t : TrustAnchor)
    (h : lookupAnchor ts a = some t) : t ∈ ts ∧ t.alg = a := by
  unfold lookupAnchor at h
  refine ⟨List.mem_of_find?_eq_some h, ?_⟩
  have hp := List.find?_some h
  simpa using hp

/-- In a store with pairwise-distinct algorithms, lookup of a member
anchor's algorithm finds exactly that anchor. -/
theorem lookupAnchor_of_pairwise (ts : TrustStore) (anchor : TrustAnchor)
    (hd : ts.Pairwise (fun a b => a.alg ≠ b.alg)) (hmem : anchor ∈ ts) :
    lookupAnchor ts anchor.alg = some anchor := by
  induction ts with
  | nil => cases hmem
  | cons a l ih =>
    rcases List.mem_cons.mp hmem with rfl | hmem'
    · simp [lookupAnchor]
    · have hne : a.alg ≠ anchor.alg := (List.pairwise_cons.mp hd).1 _ hmem'
      have hbeq : (a.alg == anchor.alg) = false := by simpa using hne
      have ihr := ih (List.pairwise_cons.mp hd).2 hmem'
      simpa [lookupAnchor, List.find?, hbeq] using ihr

/-- A candidate declaring an algorithm outside the allow-list is rejected
with `algRejected`, whatever its signature and whatever keys are loaded. -/
theorem checkCandidate_algRejected (store : TrustStore) (allow : List cjwt_alg_t)
    (now : Int) (hh : JwtHeader) (cl : JwtClaims) (sg : JwtSignature)
    (halg : hh.alg ∉ allow) :
    checkCandidate store allow now (.jwt hh cl sg) = .error .algRejected := by
  simp [checkCandidate, halg]

/-- Characterization of a successful single-candidate verification: the
record parsed as a JWT, its declared algorithm is allowed, its signature
verified against the trust anchor looked up for that algorithm, its
validity window contains `now`, and the claim is built from its payload. -/
theorem checkCandidate_ok_elim (store : TrustStore) (allow : List cjwt_alg_t)
    (now : Int) (r : Candidate) (c : VerifiedClaim)
    (h : checkCandidate store allow now r = .ok c) :
    ∃ hh cl sg, r = .jwt hh cl sg ∧ hh.alg ∈ allow ∧
      (∃ anchor, lookupAnchor store hh.alg = some anchor ∧
        sg = signToken anchor.alg anchor.key) ∧
      cl.nbf ≤ now ∧ now < cl.exp ∧ c = ⟨cl.iss, cl.nbf, cl.exp⟩ := by
  cases r with
  | malformed raw => exact absurd h (by simp [checkCandidate])
  | jwt hh cl sg =>
    simp only [checkCandidate] at h
    split at h
    · rename_i hmem
      split at h
      · exact Except.noConfusion h
      · rename_i anchor heq
        split at h
        · rename_i hsig
          split at h
          · exact Except.noConfusion h
          · rename_i hnbf
            split at h
            · exact Except.noConfusion h
            · rename_i hexp
              have hc : VerifiedClaim.mk cl.iss cl.nbf cl.exp = c :=
                Except.ok.inj h
              exact ⟨hh, cl, sg, rfl, hmem, ⟨anchor, heq, hsig⟩,
                by omega, by omega, hc.symm⟩
        · exact Except.noConfusion h
    · exact Except.noConfusion h

/-- Single-candidate verification succeeds on a token signed with the key
of the anchor its declared algorithm looks up, when that algorithm is
allowed and the validity window contains `now`. -/
theorem checkCandidate_ok_intro (store : TrustStore) (allow : List cjwt_alg_t)
    (now : Int) (anchor : TrustAnchor) (hh : JwtHeader) (cl : JwtClaims)
    (hl : lookupAnchor store hh.alg = some anchor)
    (hmem : hh.alg ∈ allow) (hnbf : cl.nbf ≤ now) (hexp : now < cl.exp) :
    checkCandidate store allow now (.jwt hh cl (signToken anchor.alg anchor.key))
      = .ok ⟨cl.iss, cl.nbf, cl.exp⟩ := by
  have h1 : ¬ now < cl.nbf := by omega
  have h2 : ¬ cl.exp ≤ now := by omega
  simp [checkCandidate, hl, hmem, h1, h2]

/-- A successful scan returns the claim of some candidate in the list. -/
theorem verifyScan_ok_elim (store : TrustStore) (allow : List cjwt_alg_t)
    (now : Int) :
    ∀ (rs : List Candidate) (b : Bool) (c : VerifiedClaim),
      verifyScan store allow now b rs = .ok c →
      ∃ r ∈ rs, checkCandidate store allow now r = .ok c := by
  intro rs
  induction rs with
  | nil => intro b c h; exact Except.noConfusion h
  | cons r rs ih =>
    intro b c h
    unfold verifyScan at h
    cases hr : checkCandidate store allow now r with
    | ok c0 =>
      rw [hr] at h
      have : c0 = c := Except.ok.inj h
      exact ⟨r, List.mem_cons_self r rs, by rw [hr, this]⟩
    | error e =>
      rw [hr] at h
      cases e <;>
        · obtain ⟨r', hr', h'⟩ := ih _ _ h
          exact ⟨r', List.mem_cons_of_mem r hr', h'⟩

/-- Once an algorithm rejection has been seen, a scan that fails fails
with `AllAlgorithmsRejected`. -/
theorem verifyScan_fail_of_seen (store : TrustStore) (allow : List cjwt_alg_t)
    (now : Int) :
    ∀ rs : List Candidate, (∃ e, verifyScan store allow now true rs = .error e) →
      verifyScan store allow now true rs = .error .AllAlgorithmsRejected := by
  intro rs
  induction rs with
  | nil => intro _; rfl
  | cons r rs ih =>
    intro h
    unfold verifyScan at h ⊢
    cases hr : checkCandidate store allow now r with
    | ok c0 =>
      rw [hr] at h
      obtain ⟨e, he⟩ := h
      exact Except.noConfusion he
    | error e0 => rw [hr] at h; cases e0 <;> exact ih h

/-- A failing scan over a list containing a candidate with a disallowed
algorithm fails with `AllAlgorithmsRejected`, whatever the scan flag. -/
theorem verifyScan_fail_mem (store : TrustStore) (allow : List cjwt_alg_t)
    (now : Int) (hh : JwtHeader) (cl : JwtClaims) (sg : JwtSignature)
    (halg : hh.alg ∉ allow) :
    ∀ (rs : List Candidate) (b : Bool), Candidate.jwt hh cl sg ∈ rs →
      (∃ e, verifyScan store allow now b rs = .error e) →
      verifyScan store allow now b rs = .error .AllAlgorithmsRejected := by
  intro rs
  induction rs with
  | nil => intro b hmem; cases hmem
  | cons r rs ih =>
    intro b hmem h
    rcases List.mem_cons.mp hmem with rfl | hmem'
    · have hr := checkCandidate_algRejected store allow now hh cl sg halg
      unfold verifyScan at h ⊢
      rw [hr] at h ⊢
      exact verifyScan_fail_of_seen store allow now rs h
    · unfold verifyScan at h ⊢
      cases hr : checkCandidate store allow now r with
      | ok c0 =>
        rw [hr] at h
        obtain ⟨e, he⟩ := h
        exact Except.noConfusion he
      | error e0 =>
        rw [hr] at h
        cases e0
        case algRejected => exact verifyScan_fail_of_seen store allow now rs h
        all_goals exact ih b hmem' h

/-- A scan over candidates that all fail, none for its algorithm, keeps
the flag and fails with `NoValidToken`. -/
theorem verifyScan_no_valid (store : TrustStore) (allow : List cjwt_alg_t)
    (now : Int) :
    ∀ rs : List Candidate,
      (∀ r ∈ rs, ∃ e, checkCandidate store allow now r = .error e
        ∧ e ≠ .algRejected) →
      verifyScan store allow now false rs = .error .NoValidToken := by
  intro rs
  induction rs with
  | nil => intro _; rfl
  | cons r rs ih =>
    intro hall
    obtain ⟨e, he, hne⟩ := hall r (List.mem_cons_self r rs)
    unfold verifyScan
    rw [he]
    cases e with
    | algRejected => exact absurd rfl hne
    | _ => exact ih (fun r' hr' => hall r' (List.mem_cons_of_mem r hr'))

/-- The scan returns the claim of the first candidate that verifies,
skipping any earlier failing candidates, whatever the flag. -/
theorem verifyScan_first_ok (store : TrustStore) (allow : List cjwt_alg_t)
    (now : Int) (t : Candidate) (ys : List Candidate) (c : VerifiedClaim)
    (ht : checkCandidate store allow now t = .ok c) :
    ∀ (xs : List Candidate) (b : Bool),
      (∀ r ∈ xs, ∃ e, checkCandidate store allow now r = .error e) →
      verifyScan store allow now b (xs ++ t :: ys) = .ok c := by
  intro xs
  induction xs with
  | nil =>
    intro b _
    rw [List.nil_append]
    unfold verifyScan
    rw [ht]
  | cons x xs ih =>
    intro b hall
    obtain ⟨e, he⟩ := hall x (List.mem_cons_self x xs)
    rw [List.cons_append]
    unfold verifyScan
    rw [he]
    cases e <;> exact ih _ (fun r' hr' => hall r' (List.mem_cons_of_mem x hr'))

end XmidtAgent

namespace XmidtAgent

/-- C1: For every configured algorithm allow-list and every JWT candidate
whose header declares an algorithm outside it, the verifier rejects that
candidate (`algRejected`, whatever its signature and whatever keys are
loaded — no fallback to other algorithms or keys), and when no candidate
of the record list verifies, the verifier fails with
`AllAlgorithmsRejected`. -/
theorem disallowed_alg_always_rejected (store : TrustStore)
    (allow : List cjwt_alg_t) (now : Int) (rs : List Candidate)
    (hh : JwtHeader) (cl : JwtClaims) (sg : JwtSignature)
    (hmem : Candidate.jwt hh cl sg ∈ rs) (halg : hh.alg ∉ allow)
    (hfail : ∃ e, verifyRecords store allow now rs = .error e) :
    checkCandidate store allow now (.jwt hh cl sg) = .error .algRejected
    ∧ verifyRecords store allow now rs = .error .AllAlgorithmsRejected := by
  refine ⟨checkCandidate_algRejected store allow now hh cl sg halg, ?_⟩
  exact verifyScan_fail_mem store allow now hh cl sg halg rs false hmem hfail

/-- C1 witness: a token whose signature is (symbolically) valid against a
loaded HS256 key but whose declared algorithm is outside the allow-list
`[RS256]` is rejected, and the whole record set fails with
`AllAlgorithmsRejected`. -/
theorem disallowed_alg_always_rejected_witness :
    checkCandidate [⟨.alg_hs256, 7⟩] [.alg_rs256] 5
        (.jwt ⟨.alg_hs256⟩ ⟨"https://issuer.example", 0, 10⟩
          (signToken .alg_hs256 7))
      = .error .algRejected
    ∧ verifyRecords [⟨.alg_hs256, 7⟩] [.alg_rs256] 5
        [.jwt ⟨.alg_hs256⟩ ⟨"https://issuer.example", 0, 10⟩
          (signToken .alg_hs256 7)]
      = .error .AllAlgorithmsRejected :=
  disallowed_alg_always_rejected _ _ _ _ _ _ _ (List.mem_singleton.mpr rfl)
    (by decide) ⟨.AllAlgorithmsRejected, by rfl⟩

/-- C2 counterexample: a record list containing zero valid tokens (its
only candidate fails verification) on which the verifier fails with
`AllAlgorithmsRejected`, not `NoValidToken`: the candidate's declared
algorithm is outside the allow-list, and the algorithm gate takes
precedence (spec §8: such a token "must fail with
AllAlgorithmsRejected"). -/
theorem zero_valid_tokens_not_NoValidToken :
    checkCandidate [] [.alg_rs256] 0
        (.jwt ⟨.alg_hs256⟩ ⟨"u", 0, 1⟩ (signToken .alg_hs256 0))
      = .error .algRejected
    ∧ verifyRecords [] [.alg_rs256] 0
        [.jwt ⟨.alg_hs256⟩ ⟨"u", 0, 1⟩ (signToken .alg_hs256 0)]
      = .error .AllAlgorithmsRejected
    ∧ VerificationError.AllAlgorithmsRejected ≠ VerificationError.NoValidToken :=
  ⟨by rfl, by rfl, by decide⟩

/-- C2 (amended): with a fixed trust store, allow-list and current time,
the verifier is a function of the received record order; a list whose
candidates all fail — none of them for declaring a disallowed algorithm —
fails with `NoValidToken` (with a disallowed algorithm present it fails
with `AllAlgorithmsRejected` instead, per C1); and the first successfully
verified token in received order is returned, which covers both the
exactly-one-valid and the multiple-valid cases. -/
theorem verifier_order_and_no_valid (store : TrustStore)
    (allow : List cjwt_alg_t) (now : Int) :
    (∀ rs : List Candidate,
      (∀ r ∈ rs, ∃ e, checkCandidate store allow now r = .error e
        ∧ e ≠ .algRejected) →
      verifyRecords store allow now rs = .error .NoValidToken)
    ∧ (∀ (xs ys : List Candidate) (t : Candidate) (c : VerifiedClaim),
      (∀ r ∈ xs, ∃ e, checkCandidate store allow now r = .error e) →
      checkCandidate store allow now t = .ok c →
      verifyRecords store allow now (xs ++ t :: ys) = .ok c) := by
  constructor
  · intro rs hall
    exact verifyScan_no_valid store allow now rs hall
  · intro xs ys t c hall ht
    exact verifyScan_first_ok store allow now t ys c ht xs false hall

/-- C2 witness: with trust anchor `(RS256, key 3)` and allow-list
`[RS256]`: a list of a malformed record and a wrong-key record fails with
`NoValidToken`; and a list with a bad-signature record followed by two
verifying records returns the first verifying one. -/
theorem verifier_order_and_no_valid_witness :
    verifyRecords [⟨.alg_rs256, 3⟩] [.alg_rs256] 5
        [.malformed "x",
         .jwt ⟨.alg_rs256⟩ ⟨"u", 0, 10⟩ ⟨.alg_rs256, 9⟩]
      = .error .NoValidToken
    ∧ verifyRecords [⟨.alg_rs256, 3⟩] [.alg_rs256] 5
        ([.jwt ⟨.alg_rs256⟩ ⟨"https://bad", 0, 10⟩ ⟨.alg_rs256, 9⟩] ++
          .jwt ⟨.alg_rs256⟩ ⟨"https://first", 0, 10⟩ (signToken .alg_rs256 3) ::
          [.jwt ⟨.alg_rs256⟩ ⟨"https://second", 0, 10⟩ (signToken .alg_rs256 3)])
      = .ok ⟨"https://first", 0, 10⟩ := by
  have h := verifier_order_and_no_valid [⟨.alg_rs256, 3⟩] [.alg_rs256] 5
  constructor
  · refine h.1 _ ?_
    intro r hr
    rcases List.mem_cons.mp hr with rfl | hr'
    · exact ⟨.parseFailed, by rfl, by decide⟩
    · rcases List.mem_singleton.mp hr' with rfl
      exact ⟨.badSignature, by rfl, by decide⟩
  · refine h.2 _ _ _ _ ?_ (by rfl)
    intro r hr
    rcases List.mem_singleton.mp hr with rfl
    exact ⟨.badSignature, by rfl⟩

/-- C4: a token signed with the key of a trust anchor present in the
store, declaring an allowed algorithm, with its validity window
containing the current time, verifies successfully and yields its issuer
claim; and the outcome is the same for every reordering of the trust
store's anchor table (one anchor per algorithm, as loaded). -/
theorem signed_token_roundtrip (store : TrustStore) (allow : List cjwt_alg_t)
    (now : Int) (anchor : TrustAnchor) (hh : JwtHeader) (cl : JwtClaims)
    (hd : store.Pairwise (fun a b => a.alg ≠ b.alg))
    (hmem : anchor ∈ store) (halg : hh.alg = anchor.alg)
    (hallow : hh.alg ∈ allow) (hnbf : cl.nbf ≤ now) (hexp : now < cl.exp) :
    checkCandidate store allow now
        (.jwt hh cl (signToken anchor.alg anchor.key))
      = .ok ⟨cl.iss, cl.nbf, cl.exp⟩
    ∧ verifyRecords store allow now
        [.jwt hh cl (signToken anchor.alg anchor.key)]
      = .ok ⟨cl.iss, cl.nbf, cl.exp⟩
    ∧ ∀ store' : TrustStore, store'.Perm store →
        checkCandidate store' allow now
            (.jwt hh cl (signToken anchor.alg anchor.key))
          = .ok ⟨cl.iss, cl.nbf, cl.exp⟩ := by
  have hl : lookupAnchor store hh.alg = some anchor := by
    rw [halg]; exact lookupAnchor_of_pairwise store anchor hd hmem
  have h1 := checkCandidate_ok_intro store allow now anchor hh cl hl hallow hnbf hexp
  refine ⟨h1, ?_, ?_⟩
  · unfold verifyRecords verifyScan
    rw [h1]
  · intro store' hperm
    have hd' : store'.Pairwise (fun a b => a.alg ≠ b.alg) :=
      (hperm.pairwise_iff (fun h1 h2 => h1 h2.symm)).mpr hd
    have hmem' : anchor ∈ store' := hperm.mem_iff.mpr hmem
    have hl' : lookupAnchor store' hh.alg = some anchor := by
      rw [halg]; exact lookupAnchor_of_pairwise store' anchor hd' hmem'
    exact checkCandidate_ok_intro store' allow now anchor hh cl hl' hallow hnbf hexp

/-- C4 witness: with a two-anchor store and its reversal, a token signed
with the RS256 anchor's key verifies to its issuer claim either way. -/
theorem signed_token_roundtrip_witness :
    checkCandidate [⟨.alg_rs256, 3⟩, ⟨.alg_es256, 4⟩] [.alg_rs256] 5
        (.jwt ⟨.alg_rs256⟩ ⟨"https://issuer.example", 0, 10⟩
          (signToken .alg_rs256 3))
      = .ok ⟨"https://issuer.example", 0, 10⟩
    ∧ verifyRecords [⟨.alg_rs256, 3⟩, ⟨.alg_es256, 4⟩] [.alg_rs256] 5
        [.jwt ⟨.alg_rs256⟩ ⟨"https://issuer.example", 0, 10⟩
          (signToken .alg_rs256 3)]
      = .ok ⟨"https://issuer.example", 0, 10⟩
    ∧ checkCandidate [⟨.alg_es256, 4⟩, ⟨.alg_rs256, 3⟩] [.alg_rs256] 5
        (.jwt ⟨.alg_rs256⟩ ⟨"https://issuer.example", 0, 10⟩
          (signToken .alg_rs256 3))
      = .ok ⟨"https://issuer.example", 0, 10⟩ := by
  have h := signed_token_roundtrip [⟨.alg_rs256, 3⟩, ⟨.alg_es256, 4⟩]
    [.alg_rs256] 5 ⟨.alg_rs256, 3⟩ ⟨.alg_rs256⟩ ⟨"https://issuer.example", 0, 10⟩
    (by decide) (by decide) rfl (by decide) (by decide) (by decide)
  exact ⟨h.1, h.2.1, h.2.2 _ (by decide)⟩

/-- A successful fetch never follows more redirects than it was allowed:
if the loop starts within the cap, the reported redirect count stays
within the cap. -/
theorem fetchLoop_count_le (server : String → HttpResponse) (maxRedirects : Int) :
    ∀ (fuel followed : Nat) (url : String) (k : Nat) (body : List Nat),
      (followed : Int) ≤ maxRedirects →
      fetchLoop server maxRedirects fuel followed url = .ok (k, body) →
      (k : Int) ≤ maxRedirects := by
  intro fuel
  induction fuel with
  | zero =>
    intro followed url k body hf h
    exact Except.noConfusion h
  | succ fuel ih =>
    intro followed url k body hf h
    unfold fetchLoop at h
    cases hs : server url with
    | success body' =>
      rw [hs] at h
      have hp : (followed, body') = (k, body) := Except.ok.inj h
      have hk : followed = k := congrArg Prod.fst hp
      rw [← hk]
      exact hf
    | status code => rw [hs] at h; exact Except.noConfusion h
    | redirect loc =>
      simp only [hs] at h
      by_cases hra : redirectAllowed maxRedirects followed = true
      · rw [if_pos hra] at h
        have hra' : maxRedirects < 0 ∨ (followed : Int) < maxRedirects := by
          simpa [redirectAllowed, decide_eq_true_eq] using hra
        have hnext : ((followed + 1 : Nat) : Int) ≤ maxRedirects := by
          push_cast
          omega
        exact ih (followed + 1) loc k body hnext h
      · rw [if_neg hra] at h; exact Except.noConfusion h

/-- Against a server that answers every URL with a redirect, a fetch with
a non-negative cap and enough fuel fails hard with `TooManyRedirects`. -/
theorem fetchLoop_all_redirects (server : String → HttpResponse)
    (maxRedirects : Int) (hmax : 0 ≤ maxRedirects)
    (hall : ∀ u, ∃ loc, server u = .redirect loc) :
    ∀ (fuel followed : Nat) (url : String),
      0 < fuel → maxRedirects - (followed : Int) < (fuel : Int) →
      fetchLoop server maxRedirects fuel followed url
        = .error .TooManyRedirects := by
  intro fuel
  induction fuel with
  | zero => intro followed url h0; omega
  | succ fuel ih =>
    intro followed url _ hlt
    obtain ⟨loc, hs⟩ := hall url
    unfold fetchLoop
    simp only [hs]
    by_cases hra : redirectAllowed maxRedirects followed = true
    · rw [if_pos hra]
      have hra' : maxRedirects < 0 ∨ (followed : Int) < maxRedirects := by
        simpa [redirectAllowed, decide_eq_true_eq] using hra
      have hfo : (followed : Int) < maxRedirects := by omega
      have h0 : 0 < fuel := by
        push_cast at hlt
        omega
      apply ih (followed + 1) loc h0
      push_cast at hlt ⊢
      omega
    · rw [if_neg hra]

end XmidtAgent

namespace XmidtAgent

/-- C3: the Fetch Client follows at most `max_redirects` server-issued
redirects: a successful fetch with a non-negative cap followed at most
that many; with `max_redirects = 0` any redirect response is the hard
failure `TooManyRedirects`; and a redirect chain exceeding a non-negative
cap yields `TooManyRedirects`, never success. -/
theorem fetch_redirect_cap :
    (∀ (server : String → HttpResponse) (maxRedirects : Int) (fuel : Nat)
        (url : String) (k : Nat) (body : List Nat),
      0 ≤ maxRedirects →
      fetchIssuer server maxRedirects fuel url = .ok (k, body) →
      (k : Int) ≤ maxRedirects)
    ∧ (∀ (server : String → HttpResponse) (fuel : Nat) (url loc : String),
      server url = .redirect loc →
      fetchIssuer server 0 (fuel + 1) url = .error .TooManyRedirects)
    ∧ (∀ (server : String → HttpResponse) (maxRedirects : Int) (fuel : Nat)
        (url : String),
      (∀ u, ∃ loc, server u = .redirect loc) →
      0 ≤ maxRedirects → maxRedirects < (fuel : Int) →
      fetchIssuer server maxRedirects fuel url = .error .TooManyRedirects) := by
  refine ⟨?_, ?_, ?_⟩
  · intro server maxRedirects fuel url k body hmax h
    exact fetchLoop_count_le server maxRedirects fuel 0 url k body
      (by simpa using hmax) h
  · intro server fuel url loc hs
    unfold fetchIssuer fetchLoop
    simp only [hs]
    simp [show redirectAllowed 0 0 = false from rfl]
  · intro server maxRedirects fuel url hall hmax hlt
    exact fetchLoop_all_redirects server maxRedirects hmax hall fuel 0 url
      (by omega) (by omega)

/-- C3 witness: a one-redirect chain under cap 1 succeeds having followed
one redirect (1 ≤ 1); with cap 0 the same redirect is a hard
`TooManyRedirects` failure; and an endless redirect chain under cap 2
with fuel 4 fails with `TooManyRedirects`. -/
theorem fetch_redirect_cap_witness :
    ((1 : Nat) : Int) ≤ (1 : Int)
    ∧ fetchIssuer (fun _ => .redirect "x") 0 1 "u" = .error .TooManyRedirects
    ∧ fetchIssuer (fun _ => .redirect "x") 2 4 "u" = .error .TooManyRedirects := by
  refine ⟨?_, ?_, ?_⟩
  · exact fetch_redirect_cap.1
      (fun u => if u = "a" then .redirect "b" else .success [7]) 1 3 "a" 1 [7]
      (by decide) (by rfl)
  · exact fetch_redirect_cap.2.1 (fun _ => .redirect "x") 0 "u" "x" rfl
  · exact fetch_redirect_cap.2.2 (fun _ => .redirect "x") 2 4 "u"
      (fun u => ⟨"x", rfl⟩) (by decide) (by decide)

/-- `next()` only advances the cursor: the yielded interface is the head
of the remaining list, which is otherwise left unchanged. -/
theorem selector_next_cons (s : Selector) (i : Interface) (s' : Selector)
    (h : Selector.next s = some (i, s')) : s.remaining = i :: s'.remaining := by
  cases s with
  | mk rem =>
    cases rem with
    | nil => exact Option.noConfusion h
    | cons a l =>
      simp [Selector.next] at h
      obtain ⟨rfl, rfl⟩ := h
      rfl

/-- A non-empty list is not `isEmpty`. -/
theorem isEmpty_false_of_ne_nil {α : Type} (l : List α) (h : l ≠ []) :
    l.isEmpty = false := by
  cases l with
  | nil => exact absurd rfl h
  | cons a l => rfl

end XmidtAgent

namespace XmidtAgent

/-- C5: for a non-empty interface list the selector's yield order (its
`remaining` cursor, consumed head-first by `next()`) is sorted ascending
by cost and is a permutation of the configured list (each interface
exactly once, exhausted afterwards); for the empty list it yields exactly
the "default" pseudo-interface; `next()` only uncovers the head and
returns `none` once exhausted; and in the orchestrator, with interfaces
`[{wifi, cost 10}, {eth0, cost 1}]`, the first attempt binds `eth0` and
after a `NetworkUnreachable` discovery failure the next attempt binds
`wifi`. -/
theorem selector_ascending_cost (l : List Interface) :
    (l ≠ [] →
      List.Sorted leCost (Selector.init l).remaining
      ∧ (Selector.init l).remaining.Perm l)
    ∧ (Selector.init []).remaining = [defaultInterface]
    ∧ (∀ (s : Selector) (i : Interface) (s' : Selector),
        Selector.next s = some (i, s') → s.remaining = i :: s'.remaining)
    ∧ Selector.next ⟨[]⟩ = none
    ∧ (let cfg : OrchConfig := ⟨[], [], 0, 60, 1⟩
       let s1 := orchStep cfg (orchInit [⟨"wifi", 10⟩, ⟨"eth0", 1⟩]) .tick
       let s3 := orchStep cfg (orchStep cfg s1 (.dnsErr .NetworkUnreachable)) .tick
       s1.phase = .Discover ∧ s1.curIface = ⟨"eth0", 1⟩
       ∧ (orchStep cfg s1 (.dnsErr .NetworkUnreachable)).phase = .SelectInterface
       ∧ s3.phase = .Discover ∧ s3.curIface = ⟨"wifi", 10⟩) := by
  refine ⟨?_, rfl, selector_next_cons, rfl, by decide⟩
  intro hne
  have h0 : l.isEmpty = false := isEmpty_false_of_ne_nil l hne
  simp only [Selector.init, h0, Bool.false_eq_true, if_false]
  exact ⟨List.sorted_insertionSort leCost l, List.perm_insertionSort leCost l⟩

/-- C5 witness: for the configured list `[{wifi, 10}, {eth0, 1}]` the
selector's yield order is sorted and a permutation of the input, and one
`next()` step uncovers exactly the head of the cursor. -/
theorem selector_ascending_cost_witness :
    (List.Sorted leCost (Selector.init [⟨"wifi", 10⟩, ⟨"eth0", 1⟩]).remaining
      ∧ (Selector.init [⟨"wifi", 10⟩, ⟨"eth0", 1⟩]).remaining.Perm
          [⟨"wifi", 10⟩, ⟨"eth0", 1⟩])
    ∧ (Selector.mk [⟨"eth0", 1⟩]).remaining
        = ⟨"eth0", 1⟩ :: (Selector.mk []).remaining := by
  have h := selector_ascending_cost [⟨"wifi", 10⟩, ⟨"eth0", 1⟩]
  exact ⟨h.1 (by decide), h.2.2.1 ⟨[⟨"eth0", 1⟩]⟩ ⟨"eth0", 1⟩ ⟨[]⟩ rfl⟩

/-- C9: every interface surviving the load-time validation has a
non-negative cost; loading reorders but never mutates the interface set
(the loaded list is a permutation of the configured one — same names,
costs and count); selector construction likewise only permutes; and
`next()` only advances the cursor, never altering an interface. -/
theorem interfaces_nonneg_and_immutable (l l' : List Interface)
    (h : loadInterfaces l = some l') :
    (∀ i ∈ l', 0 ≤ i.cost)
    ∧ l'.Perm l
    ∧ (l' ≠ [] → (Selector.init l').remaining.Perm l')
    ∧ (∀ (s : Selector) (i : Interface) (s' : Selector),
        Selector.next s = some (i, s') → s.remaining = i :: s'.remaining) := by
  unfold loadInterfaces at h
  split at h
  · rename_i hall
    have hl' : List.insertionSort leCost l = l' := Option.some.inj h
    have hperm : l'.Perm l := by
      rw [← hl']; exact List.perm_insertionSort leCost l
    have hnn : ∀ i ∈ l, 0 ≤ i.cost := by
      intro i hi
      simpa using List.all_eq_true.mp hall i hi
    refine ⟨fun i hi => hnn i (hperm.subset hi), hperm, ?_, selector_next_cons⟩
    intro hne
    have h0 : l'.isEmpty = false := isEmpty_false_of_ne_nil l' hne
    simp only [Selector.init, h0, Bool.false_eq_true, if_false]
    exact List.perm_insertionSort leCost l'
  · exact Option.noConfusion h

/-- C9 witness: loading `[{wifi, 10}, {eth0, 1}]` yields the cost-sorted
permutation `[{eth0, 1}, {wifi, 10}]`, whose members have non-negative
costs. -/
theorem interfaces_nonneg_and_immutable_witness :
    (0 : Int) ≤ (Interface.mk "eth0" 1).cost
    ∧ List.Perm [⟨"eth0", 1⟩, ⟨"wifi", 10⟩]
        [(⟨"wifi", 10⟩ : Interface), ⟨"eth0", 1⟩] := by
  have h := interfaces_nonneg_and_immutable [⟨"wifi", 10⟩, ⟨"eth0", 1⟩]
    [⟨"eth0", 1⟩, ⟨"wifi", 10⟩] (by rfl)
  exact ⟨h.1 ⟨"eth0", 1⟩ (by simp), h.2.1⟩

/-- Every orchestrator transition either leaves the state unchanged or,
when it enters `Retrying w`, chose `w` by `backoffWait` at the current
retry count and incremented that count. -/
theorem orchStep_retrying_cases (cfg : OrchConfig) (s : OrchState) (ev : Event) :
    orchStep cfg s ev = s
    ∨ ∀ w, (orchStep cfg s ev).phase = .Retrying w →
        w = backoffWait cfg.backoff_max cfg.backoffBase s.retries
        ∧ (orchStep cfg s ev).retries = s.retries + 1 := by
  unfold orchStep
  split
  · exact Or.inl rfl
  · split
    · right; intro w h; simp at h
    · split
      · split
        · right; intro w h; simp at h
        · right; intro w h; simp at h; exact ⟨h.symm, rfl⟩
      · split
        · right; intro w h; simp at h
        · right; intro w h; simp at h; exact ⟨h.symm, rfl⟩
      · right; intro w h; simp at h
      · exact Or.inl rfl
    · split
      · right; intro w h; simp at h
      · exact Or.inl rfl
    · split
      · split
        · right; intro w h; simp at h
        · right; intro w h; simp at h; exact ⟨h.symm, rfl⟩
      · exact Or.inl rfl
    · split
      · right; intro w h; simp at h
      · exact Or.inl rfl
    · split
      · split
        · right; intro w h; simp at h
        · right; intro w h; simp at h; exact ⟨h.symm, rfl⟩
      · exact Or.inl rfl

/-- Every orchestrator transition either leaves the state unchanged, or
was triggered by the cancellation signal, or does not end in `Failed`. -/
theorem orchStep_failed_cases (cfg : OrchConfig) (s : OrchState) (ev : Event) :
    orchStep cfg s ev = s
    ∨ ev = .cancel
    ∨ ∀ r, (orchStep cfg s ev).phase ≠ .Failed r := by
  unfold orchStep
  split
  · exact Or.inl rfl
  · split
    · exact Or.inr (Or.inl rfl)
    · split
      · split
        · right; right; intro r h; simp at h
        · right; right; intro r h; simp at h
      · split
        · right; right; intro r h; simp at h
        · right; right; intro r h; simp at h
      · right; right; intro r h; simp at h
      · exact Or.inl rfl
    · split
      · right; right; intro r h; simp at h
      · exact Or.inl rfl
    · split
      · split
        · right; right; intro r h; simp at h
        · right; right; intro r h; simp at h
      · exact Or.inl rfl
    · split
      · right; right; intro r h; simp at h
      · exact Or.inl rfl
    · split
      · split
        · right; right; intro r h; simp at h
        · right; right; intro r h; simp at h
      · exact Or.inl rfl

/-- Every orchestrator transition either leaves the state unchanged or,
when it ends in `Fetch c`, came from a `Verify` phase whose records
verified to exactly the claim `c`. -/
theorem orchStep_fetch_cases (cfg : OrchConfig) (s : OrchState) (ev : Event) :
    orchStep cfg s ev = s
    ∨ ∀ c, (orchStep cfg s ev).phase = .Fetch c →
        ∃ rs, s.phase = .Verify rs
          ∧ verifyRecords cfg.store cfg.allow cfg.now rs = .ok c := by
  unfold orchStep
  split
  · exact Or.inl rfl
  · split
    · right; intro c h; simp at h
    · split
      · split
        · right; intro c h; simp at h
        · right; intro c h; simp at h
      · rename_i rs hphase
        split
        · rename_i c0 hver
          right; intro c h; simp at h
          subst h
          exact ⟨rs, hphase, hver⟩
        · right; intro c h; simp at h
      · right; intro c h; simp at h
      · exact Or.inl rfl
    · split
      · right; intro c h; simp at h
      · exact Or.inl rfl
    · split
      · split
        · right; intro c h; simp at h
        · right; intro c h; simp at h
      · exact Or.inl rfl
    · split
      · right; intro c h; simp at h
      · exact Or.inl rfl
    · split
      · split
        · right; intro c h; simp at h
        · right; intro c h; simp at h
      · exact Or.inl rfl

/-- C6: backoff waits are a non-decreasing function of the retry count,
each wait is capped by `backoff_max`, and every orchestrator transition
that enters `Retrying` chose its wait by `backoffWait` at the current
retry count and incremented that count — so successive waits after
transient failures are non-decreasing and never exceed `backoff_max`. -/
theorem backoff_nondecreasing_capped (backoff_max base : Nat) :
    (∀ i j : Nat, i ≤ j →
      backoffWait backoff_max base i ≤ backoffWait backoff_max base j)
    ∧ (∀ i : Nat, backoffWait backoff_max base i ≤ backoff_max)
    ∧ (∀ (cfg : OrchConfig) (s : OrchState) (ev : Event) (w : Nat),
        (orchStep cfg s ev).phase = .Retrying w → orchStep cfg s ev ≠ s →
        w = backoffWait cfg.backoff_max cfg.backoffBase s.retries
        ∧ (orchStep cfg s ev).retries = s.retries + 1) := by
  refine ⟨?_, ?_, ?_⟩
  · intro i j hij
    unfold backoffWait
    exact min_le_min
      (Nat.mul_le_mul_left base (Nat.pow_le_pow_right (by norm_num) hij))
      (le_refl backoff_max)
  · intro i
    exact min_le_right _ _
  · intro cfg s ev w h hne
    rcases orchStep_retrying_cases cfg s ev with hid | hr
    · exact absurd hid hne
    · exact hr w h

/-- C6 witness: with `backoff_max = 60` and base 1, wait 1 ≤ wait 2, wait
3 is within the cap, and a transient DNS timeout in `Discover` enters
`Retrying` with the wait chosen at retry count 0 and the count bumped. -/
theorem backoff_nondecreasing_capped_witness :
    backoffWait 60 1 1 ≤ backoffWait 60 1 2
    ∧ backoffWait 60 1 3 ≤ 60
    ∧ (1 = backoffWait 60 1 0
      ∧ (orchStep ⟨[], [], 0, 60, 1⟩ ⟨.Discover, ⟨[]⟩, defaultInterface, 0⟩
          (.dnsErr .Timeout)).retries = 0 + 1) := by
  have h := backoff_nondecreasing_capped 60 1
  exact ⟨h.1 1 2 (by decide), h.2.1 3,
    h.2.2 ⟨[], [], 0, 60, 1⟩ ⟨.Discover, ⟨[]⟩, defaultInterface, 0⟩
      (.dnsErr .Timeout) 1 (by decide) (by decide)⟩

/-- C7: the terminal `Failed` state is entered only by the external
cancellation signal: a transition ending in `Failed` either started there
or was the `cancel` event; from `Failed` the orchestrator makes no
further transitions (no retries); and `cancel` from any non-terminal
state yields `Failed Cancelled` — so no error event ever produces a
terminal failure and the orchestrator otherwise retries indefinitely. -/
theorem failed_only_on_cancellation (cfg : OrchConfig) :
    (∀ (s : OrchState) (ev : Event) (r : FailReason),
      (orchStep cfg s ev).phase = .Failed r → s.phase = .Failed r ∨ ev = .cancel)
    ∧ (∀ (s : OrchState) (ev : Event) (r : FailReason),
      s.phase = .Failed r → orchStep cfg s ev = s)
    ∧ (∀ s : OrchState, s.phase.terminal = false →
      orchStep cfg s .cancel = { s with phase := .Failed .Cancelled }) := by
  refine ⟨?_, ?_, ?_⟩
  · intro s ev r h
    rcases orchStep_failed_cases cfg s ev with hid | hc | hnf
    · rw [hid] at h; exact Or.inl h
    · exact Or.inr hc
    · exact absurd h (hnf r)
  · intro s ev r hph
    have ht : s.phase.terminal = true := by rw [hph]; rfl
    unfold orchStep
    rw [if_pos ht]
  · intro s hterm
    unfold orchStep
    simp [hterm]

/-- C7 witness: cancelling from `Discover` yields `Failed Cancelled`; a
`Failed` state absorbs further events; and a non-`cancel` error event
from `Discover` does not reach `Failed`. -/
theorem failed_only_on_cancellation_witness :
    ((⟨.Discover, ⟨[]⟩, defaultInterface, 0⟩ : OrchState).phase
        = .Failed .Cancelled ∨ Event.cancel = .cancel)
    ∧ orchStep ⟨[], [], 0, 60, 1⟩
        ⟨.Failed .Cancelled, ⟨[]⟩, defaultInterface, 0⟩ .tick
      = ⟨.Failed .Cancelled, ⟨[]⟩, defaultInterface, 0⟩
    ∧ orchStep ⟨[], [], 0, 60, 1⟩ ⟨.Discover, ⟨[]⟩, defaultInterface, 0⟩ .cancel
      = { (⟨.Discover, ⟨[]⟩, defaultInterface, 0⟩ : OrchState) with
          phase := .Failed .Cancelled } := by
  have h := failed_only_on_cancellation ⟨[], [], 0, 60, 1⟩
  exact ⟨h.1 ⟨.Discover, ⟨[]⟩, defaultInterface, 0⟩ .cancel .Cancelled (by decide),
    h.2.1 ⟨.Failed .Cancelled, ⟨[]⟩, defaultInterface, 0⟩ .tick .Cancelled rfl,
    h.2.2 ⟨.Discover, ⟨[]⟩, defaultInterface, 0⟩ rfl⟩

/-- C8: a `Fetch` phase (the only place an issuer URL is handed to the
Fetch Client) is entered only from a `Verify` phase whose records
verified to exactly that claim; and the claim traces back to a record in
the received set whose signature verified against a trust anchor present
in the attempt's (pre-loaded) trust store, with the claim's issuer URL
taken from that record's payload. -/
theorem verified_claim_provenance (cfg : OrchConfig) (s : OrchState)
    (ev : Event) (c : VerifiedClaim)
    (hnf : ∀ c0 : VerifiedClaim, s.phase ≠ .Fetch c0)
    (h : (orchStep cfg s ev).phase = .Fetch c) :
    ∃ rs : List Candidate, s.phase = .Verify rs
      ∧ verifyRecords cfg.store cfg.allow cfg.now rs = .ok c
      ∧ ∃ r ∈ rs, ∃ (hh : JwtHeader) (cl : JwtClaims) (sg : JwtSignature),
          r = .jwt hh cl sg ∧ hh.alg ∈ cfg.allow
          ∧ ∃ anchor ∈ cfg.store, anchor.alg = hh.alg
              ∧ sg = signToken anchor.alg anchor.key
              ∧ c.issuerUrl = cl.iss := by
  rcases orchStep_fetch_cases cfg s ev with hid | hft
  · rw [hid] at h
    exact absurd h (hnf c)
  · obtain ⟨rs, hph, hver⟩ := hft c h
    obtain ⟨r, hrmem, hrok⟩ :=
      verifyScan_ok_elim cfg.store cfg.allow cfg.now rs false c hver
    obtain ⟨hh, cl, sg, rfl, hallow, ⟨anchor, hla, hsg⟩, hnbf, hexp, hc⟩ :=
      checkCandidate_ok_elim cfg.store cfg.allow cfg.now r c hrok
    obtain ⟨hmem, halg⟩ := lookupAnchor_eq_some cfg.store hh.alg anchor hla
    exact ⟨rs, hph, hver, .jwt hh cl sg, hrmem, hh, cl, sg, rfl, hallow,
      anchor, hmem, halg, hsg, by rw [hc]⟩

/-- C8 witness: entering `Fetch` from a concrete `Verify` state implies
the record set verified to the returned claim — evaluated on a one-record
set signed by the stored RS256 anchor. -/
theorem verified_claim_provenance_witness :
    verifyRecords [⟨.alg_rs256, 3⟩] [.alg_rs256] 5
        [.jwt ⟨.alg_rs256⟩ ⟨"https://issuer.example", 0, 10⟩
          (signToken .alg_rs256 3)]
      = .ok ⟨"https://issuer.example", 0, 10⟩ := by
  obtain ⟨rs, hph, hver, _⟩ :=
    verified_claim_provenance ⟨[⟨.alg_rs256, 3⟩], [.alg_rs256], 5, 60, 1⟩
      ⟨.Verify [.jwt ⟨.alg_rs256⟩ ⟨"https://issuer.example", 0, 10⟩
        (signToken .alg_rs256 3)], ⟨[]⟩, defaultInterface, 0⟩
      .tick ⟨"https://issuer.example", 0, 10⟩
      (fun c0 h => OPhase.noConfusion h) (by decide)
  rw [OPhase.Verify.inj hph]
  exact hver

end XmidtAgent

namespace XmidtAgent

/-- C10: In `enum tls_version`, `TLS_VERSION__MAX` is the zero value, the
concrete versions are numbered strictly increasingly
`1_0 < 1_1 < 1_2 < 1_3`, and a zero-initialized field denotes
`TLS_VERSION__MAX` (not `TLS_VERSION__1_0`) and compares below every
concrete version floor. -/
theorem tls_version_zero_is_max_and_ordered :
    tls_version.toC .TLS_VERSION__MAX = 0
    ∧ tls_version.toC .TLS_VERSION__1_0 < tls_version.toC .TLS_VERSION__1_1
    ∧ tls_version.toC .TLS_VERSION__1_1 < tls_version.toC .TLS_VERSION__1_2
    ∧ tls_version.toC .TLS_VERSION__1_2 < tls_version.toC .TLS_VERSION__1_3
    ∧ tls_version.ofC 0 = some .TLS_VERSION__MAX
    ∧ tls_version.ofC 0 ≠ some .TLS_VERSION__1_0
    ∧ ∀ v ∈ tls_version.concrete,
        tls_version.toC .TLS_VERSION__MAX < tls_version.toC v := by
  refine ⟨rfl, by decide, by decide, by decide, rfl, by decide, ?_⟩
  intro v hv
  fin_cases hv <;> decide

end XmidtAgent
